import Mathlib

/-!
Verification development for the epub2pdf conversion pipeline.

This file is a shallow embedding of the core conversion pipeline of the
repository (src/core/converter/): the image processor
(`convert_images_to_pdf`, `_convert_groups_parallel`,
`_calculate_optimal_group_size`, `_convert_group_to_pdf`, `_verify_pdf_file`,
`_add_to_cache`), the PDF merger (`merge_pdfs`, `_validate_pdfs`,
`_merge_simple_optimized`, `cleanup_temp_files`) and the native converter
(`convert_cbr_to_pdf`, `convert_epub_to_pdf`).

Modelling conventions:
* Python `list(set(xs))` iterates a hash table whose iteration order is
  implementation defined (string hashing is randomized per process).  It is
  modelled by an arbitrary function `f` constrained by `PySet f`: the result
  is some permutation of the deduplicated input.
* Python numbers in `_calculate_optimal_group_size` are ints and floats whose
  values are all non-negative multiples of 1/2 (the only non-integer operation
  is `base_size * 1.5`).  They are modelled exactly by `PyNum`: the value
  scaled by 2 (`half`) together with the Python type tag (`isFloat`).
  `min`/`max` follow CPython object semantics: they return one of their
  argument objects, the first one on ties, so the int/float tag of the result
  is the tag of the chosen argument.
* `range(0, n, step)` with a float step raises `TypeError`; in
  `convert_images_to_pdf` that exception is caught by the top-level handler
  which returns `False`.  `partitionGroups` returns `none` in that case.
* File contents are byte lists (`List ℕ`), a file system is a partial map
  `String → Option (List ℕ)`.
* Thread-pool completion order only affects the order in which per-group
  results are appended; the coordinator re-sorts by group index, so results
  are modelled indexed by group number, with a `renderOk` oracle standing for
  the per-group Pillow rendering (decode, transform, encode) succeeding.
-/

/-- Admissible behaviours of Python `list(set(xs))`: the output is a
permutation of the deduplicated input (iteration order of a hash set is
implementation defined). -/
def PySet {α : Type} [DecidableEq α] (f : List α → List α) : Prop :=
  ∀ xs : List α, (f xs).Perm xs.dedup

/-- One admissible `list(set(·))` behaviour used as a concrete interpreter
order in witnesses. -/
def pySetKeep {α : Type} [DecidableEq α] : List α → List α := fun xs => xs.dedup

/-- Another admissible `list(set(·))` behaviour: the hash table happens to
yield the deduplicated elements rotated by one. -/
def pySetRot : List ℕ → List ℕ := fun xs => xs.dedup.rotate 1

lemma pySet_pySetKeep {α : Type} [DecidableEq α] : PySet (pySetKeep (α := α)) :=
  fun _ => List.Perm.refl _

lemma pySet_pySetRot : PySet pySetRot :=
  fun xs => List.rotate_perm xs.dedup 1

/-! ### Stable sorting (model of Python `list.sort(key=...)`, which is stable) -/

/-- Insert `a` into `l` before the first element `b` with `le a b`. -/
def insertSorted {α : Type} (le : α → α → Bool) (a : α) : List α → List α
  | [] => [a]
  | b :: bs => if le a b then a :: b :: bs else b :: insertSorted le a bs

/-- Stable insertion sort; Python `list.sort` is stable, and a stable sort is
determined up to the comparison, so this models it faithfully. -/
def stableSort {α : Type} (le : α → α → Bool) : List α → List α
  | [] => []
  | a :: as => insertSorted le a (stableSort le as)

lemma insertSorted_perm {α : Type} (le : α → α → Bool) (a : α) (l : List α) :
    (insertSorted le a l).Perm (a :: l) := by
  induction l with
  | nil => exact List.Perm.refl _
  | cons b bs ih =>
      unfold insertSorted
      split
      · exact List.Perm.refl _
      · exact (ih.cons b).trans (List.Perm.swap a b bs)

lemma stableSort_perm {α : Type} (le : α → α → Bool) (l : List α) :
    (stableSort le l).Perm l := by
  induction l with
  | nil => exact List.Perm.refl _
  | cons a as ih =>
      exact (insertSorted_perm le a (stableSort le as)).trans (ih.cons a)

/-! ### Natural sort key (`BaseConverter._natural_sort_key`)

Python: `[int(t) if t.isdigit() else t.lower() for t in re.split('([0-9]+)', str(path))]`.
`re.split` with a capturing group alternates non-digit text and digit runs and
yields an empty text chunk before a leading digit run and after a trailing one.
Keys are compared as Python lists: lexicographically; positions of equal index
always hold the same type (even positions text, odd positions digit runs), so
the int/str `TypeError` case of Python list comparison is unreachable. -/

/-- Lexicographic comparison of char lists by code point (Python `str < str`). -/
def charListLt : List Char → List Char → Bool
  | [], [] => false
  | [], _ :: _ => true
  | _ :: _, [] => false
  | a :: as, b :: bs =>
      if a.toNat < b.toNat then true
      else if b.toNat < a.toNat then false
      else charListLt as bs

/-- Value of a digit run (Python `int(t)`). -/
def digitsVal (cs : List Char) : ℕ :=
  cs.foldl (fun acc c => 10 * acc + (c.toNat - 48)) 0

/-- Split a char list into maximal runs, each tagged with whether it is a
digit run (the effect of `re.split('([0-9]+)', s)` minus the empty chunks). -/
def splitRuns : List Char → List (Bool × List Char)
  | [] => []
  | c :: cs =>
      match splitRuns cs with
      | [] => [(c.isDigit, [c])]
      | (b, run) :: rest =>
          if c.isDigit = b then (b, c :: run) :: rest
          else (c.isDigit, [c]) :: (b, run) :: rest

/-- A natural-sort key token: a digit run as a number, or lowercased text. -/
abbrev NatToken := ℕ ⊕ List Char

/-- The natural sort key of a path (`_natural_sort_key`), including the empty
text chunks `re.split` produces around leading and trailing digit runs. -/
def natural_sort_key (s : String) : List NatToken :=
  let runs := splitRuns s.data
  let toks : List NatToken := runs.map fun r =>
    if r.1 then Sum.inl (digitsVal r.2) else Sum.inr (r.2.map Char.toLower)
  let toks : List NatToken :=
    match runs with
    | (true, _) :: _ => Sum.inr [] :: toks
    | _ => toks
  match runs.getLast? with
  | some (true, _) => toks ++ [Sum.inr ([] : List Char)]
  | _ => toks

/-- Token comparison; the mixed int/str cases are unreachable for real keys
(same-index tokens always have the same type). -/
def tokLt : NatToken → NatToken → Bool
  | Sum.inl a, Sum.inl b => a < b
  | Sum.inr a, Sum.inr b => charListLt a b
  | _, _ => false

/-- Python list comparison on keys (lexicographic, shorter prefixes first). -/
def keyLt : List NatToken → List NatToken → Bool
  | [], [] => false
  | [], _ :: _ => true
  | _ :: _, [] => false
  | a :: as, b :: bs =>
      if tokLt a b then true
      else if tokLt b a then false
      else keyLt as bs

/-- `image_paths.sort(key=lambda x: self._natural_sort_key(x))`. -/
def sortNaturalKey (paths : List String) : List String :=
  stableSort (fun x y => !(keyLt (natural_sort_key y) (natural_sort_key x))) paths

/-- Lowercased base name (`Path(x).name.lower()`). -/
def lowerBaseName (s : String) : List Char :=
  (s.data.foldl (fun acc c => if c = '/' then [] else acc ++ [c]) []).map Char.toLower

/-- Merge-order policy application in `convert_images_to_pdf` (lines 41-52):
alphabetical re-sorts by lowercased file name, reversed reverses, custom and
natural (and any other value) keep the natural order. -/
def applyMergeOrder (mergeOrder : String) (paths : List String) : List String :=
  if mergeOrder = "Alphabétique" then
    stableSort (fun x y => !(charListLt (lowerBaseName y) (lowerBaseName x))) paths
  else if mergeOrder = "Inversé" then paths.reverse
  else paths

lemma applyMergeOrder_perm (mo : String) (paths : List String) :
    (applyMergeOrder mo paths).Perm paths := by
  unfold applyMergeOrder
  split
  · exact stableSort_perm _ _
  · split
    · exact List.reverse_perm paths
    · exact List.Perm.refl _

/-! ### Group size heuristic (`_calculate_optimal_group_size`) -/

/-- A Python number appearing in the group-size computation: all such values
are non-negative multiples of 1/2, stored as the value scaled by 2 (`half`),
with the Python type tag (`isFloat`).  `base_size * 1.5` is the only operation
producing a float. -/
structure PyNum where
  half : ℕ
  isFloat : Bool
deriving DecidableEq

/-- A Python int as a `PyNum`. -/
def pyInt (n : ℕ) : PyNum := ⟨2 * n, false⟩

/-- Python `min(a, b)` on numbers: returns the argument object with the
smaller value, the first one on ties. -/
def pyMin (a b : PyNum) : PyNum := if b.half < a.half then b else a

/-- Python `max(a, b)` on numbers: returns the argument object with the
larger value, the first one on ties. -/
def pyMax (a b : PyNum) : PyNum := if a.half < b.half then b else a

/-- `ImageProcessor._calculate_optimal_group_size` (image_processor.py lines
135-163), with exact Python int/float semantics: `base_size // 2` is integer
division; `base_size * 1.5` is a float; `total_images // max(1, max_workers)`
is integer division. -/
def calculate_optimal_group_size (totalImages maxWorkers : ℕ)
    (veryfastMode fastMode : Bool) : PyNum :=
  let baseSize : ℕ := if veryfastMode then 60 else if fastMode then 40 else 25
  let groupSize : PyNum :=
    if 6 < maxWorkers then pyInt (baseSize / 2)
    else if maxWorkers < 3 then ⟨baseSize * 3, true⟩
    else pyInt baseSize
  let groupSize : PyNum :=
    if 1000 < totalImages then pyMin groupSize (pyInt 30)
    else if totalImages < 100 then pyMax groupSize (pyInt 15)
    else groupSize
  pyMax (pyInt 10) (pyMin groupSize (pyInt (totalImages / max 1 maxWorkers)))

/-- The group-size formula as the specification states it, value only (scaled
by 2 like `PyNum.half`): base by speed mode, integer-halved above 6 workers,
times 1.5 below 3 workers, capped at 30 above 1000 assets, floored at 15 below
100 assets, and finally `max(10, min(computed, totalAssets // workerCount))`. -/
def specGroupSizeHalf (totalAssets workerCount : ℕ)
    (veryfastMode fastMode : Bool) : ℕ :=
  let base : ℕ := if veryfastMode then 60 else if fastMode then 40 else 25
  let adjusted : ℕ :=
    if 6 < workerCount then 2 * (base / 2)
    else if workerCount < 3 then 3 * base
    else 2 * base
  let clamped : ℕ :=
    if 1000 < totalAssets then min adjusted (2 * 30)
    else if totalAssets < 100 then max adjusted (2 * 15)
    else adjusted
  max (2 * 10) (min clamped (2 * (totalAssets / max 1 workerCount)))

/-! ### Partitioning into groups -/

/-- Consecutive chunks of size `n` (fuel-driven; `fuel ≥ xs.length` and
`n ≥ 1` make it total on the list). -/
def chunkAux {α : Type} (n : ℕ) : ℕ → List α → List (List α)
  | 0, _ => []
  | _ + 1, [] => []
  | fuel + 1, x :: xs => (x :: xs).take n :: chunkAux n fuel ((x :: xs).drop n)

/-- `groups = [image_paths[i:i + group_size] for i in range(0, len(image_paths), group_size)]`. -/
def chunkList {α : Type} (n : ℕ) (xs : List α) : List (List α) :=
  chunkAux n xs.length xs

/-- The grouping step of `convert_images_to_pdf` (line 56).  A float group
size makes `range()` raise `TypeError` (caught by the top-level handler):
modelled as `none`.  An int group size partitions the list. -/
def partitionGroups (paths : List String) (g : PyNum) : Option (List (List String)) :=
  if g.isFloat then none
  else some (chunkList (g.half / 2) paths)

/-! ### Parallel render coordinator (`_convert_groups_parallel`)

Per-group outcomes are indexed by group number: `results[i] = some a` means
group `i` produced artifact `a` (for the page-level pipeline the artifact is
identified with its group index), `none` means the group failed.  Thread
completion order only permutes the append order of the collected pairs; the
caller re-sorts by group number, so the index-ordered list is used. -/

/-- The collected `(group_num, temp_pdf)` pairs, indices starting at `i`. -/
def collectedAux {α : Type} (i : ℕ) : List (Option α) → List (ℕ × α)
  | [] => []
  | some a :: rest => (i, a) :: collectedAux (i + 1) rest
  | none :: rest => collectedAux (i + 1) rest

/-- The collected `(group_num, temp_pdf)` pairs (lines 112-123). -/
def collectedArtifacts {α : Type} (results : List (Option α)) : List (ℕ × α) :=
  collectedAux 0 results

/-- `successful_groups`: the number of groups whose future returned a PDF. -/
def successCount {α : Type} (results : List (Option α)) : ℕ :=
  (results.filter Option.isSome).length

/-- `min_success_rate = max(1, len(groups) // 3)` (line 101). -/
def minSuccessRate (totalGroups : ℕ) : ℕ := max 1 (totalGroups / 3)

/-- `ImageProcessor._convert_groups_parallel` (lines 97-133): collect the
per-group artifacts and return them, unless fewer than
`max(1, G // 3)` groups succeeded, in which case return the empty list. -/
def convert_groups_parallel {α : Type} (results : List (Option α)) : List (ℕ × α) :=
  if successCount results < minSuccessRate results.length then []
  else collectedArtifacts results

/-! ### Page-level pipeline (`convert_images_to_pdf`) -/

/-- Conversion options read by the pipeline (`options.get(...)`). -/
structure ConvOptions where
  mergeOrder : String
  veryfastMode : Bool
  fastMode : Bool
  grayscale : Bool

/-- Defaults: `options.get('merge_order', 'Naturel')`, modes off. -/
def defaultOptions : ConvOptions := ⟨"Naturel", false, false, false⟩

/-- `temp_pdfs.sort(key=lambda x: x[0])` (line 68): stable sort of the
collected pairs by group number. -/
def sortByGroupNum (tempPdfs : List (ℕ × ℕ)) : List (ℕ × ℕ) :=
  stableSort (fun a b => decide (a.1 ≤ b.1)) tempPdfs

/-- `PDFMerger.merge_pdfs` at the page level (pdf_merger.py lines 22-61):
artifacts are identified with their group indices, `pagesOf i` is the page
list of artifact `i`.  The merger deduplicates via `list(set(...))` (`fN`),
then either appends every page of every artifact in list order (PyPDF2
available; fails if no pages) or falls back to copying the single largest
artifact (`fallbackPick`, an oracle for the size comparison, returning which
artifact is the largest on disk). -/
def merge_pdfs_pages (fN : List ℕ → List ℕ) (pypdf2Available : Bool)
    (fallbackPick : List ℕ → Option ℕ) (pagesOf : ℕ → List String)
    (tempPdfs : List ℕ) : Option (List String) :=
  if tempPdfs.isEmpty then none
  else
    let uniquePdfs := fN tempPdfs
    let validPdfs := uniquePdfs
    if validPdfs.isEmpty then none
    else if pypdf2Available then
      let pages := (validPdfs.map pagesOf).flatten
      if pages.isEmpty then none else some pages
    else (fallbackPick validPdfs).map pagesOf

/-- The per-group outcomes, indexed by group number: group `i` yields the
artifact identified with `i` when `renderOk i`, and `None` otherwise
(the futures of lines 106-109, collected by lines 112-123). -/
def renderResults (renderOk : ℕ → Bool) (numGroups : ℕ) : List (Option ℕ) :=
  (List.range numGroups).map fun i => if renderOk i then some i else none

/-- Lines 60-91 of `convert_images_to_pdf`: render the groups in parallel,
apply the gate, re-sort the collected artifacts by group number, deduplicate
via `list(set(...))` (`fN`) and merge. -/
def mergeStage (fN : List ℕ → List ℕ) (renderOk : ℕ → Bool)
    (pypdf2Available : Bool) (fallbackPick : List ℕ → Option ℕ)
    (groups : List (List String)) : Option (List String) :=
  let results := renderResults renderOk groups.length
  let tempPdfs := convert_groups_parallel results
  if tempPdfs.isEmpty then none
  else
    let sortedPdfs := (sortByGroupNum tempPdfs).map Prod.snd
    let uniquePdfs := fN sortedPdfs
    merge_pdfs_pages fN pypdf2Available fallbackPick
      (fun i => groups.getD i []) uniquePdfs

/-- `ImageProcessor.convert_images_to_pdf` (image_processor.py lines 26-95),
at the page level.  `fS`/`fN` are the `list(set(...))` iteration orders used
on image paths and on temp-PDF identities; `renderOk i` is the oracle for
group `i` rendering and validating successfully; the final document is the
list of its pages (each page identified by the image path it was rendered
from), `none` meaning the function returns `False`.
The empty-groups case (`len(groups) == 0`) raises `ZeroDivisionError` in
`_convert_groups_parallel`, caught by the top-level handler; the model reaches
the same `none` through the gate (0 successes < 1). -/
def convert_images_to_pdf (fS : List String → List String) (fN : List ℕ → List ℕ)
    (maxWorkers : ℕ) (renderOk : ℕ → Bool) (pypdf2Available : Bool)
    (fallbackPick : List ℕ → Option ℕ)
    (imagePaths : List String) (options : ConvOptions) : Option (List String) :=
  let uniquePaths := fS imagePaths
  let paths1 := if uniquePaths.length ≠ imagePaths.length then uniquePaths else imagePaths
  let paths2 := sortNaturalKey paths1
  let paths3 := applyMergeOrder options.mergeOrder paths2
  let gs := calculate_optimal_group_size paths3.length maxWorkers
    options.veryfastMode options.fastMode
  match partitionGroups paths3 gs with
  | none => none
  | some groups => mergeStage fN renderOk pypdf2Available fallbackPick groups

/-! ### Byte-level merger (`pdf_merger.py`) and artifact validation -/

/-- The PDF magic header bytes `%PDF`. -/
def pdfMagic : List ℕ := [37, 80, 68, 70]

/-- The PDF end-of-file marker bytes `%%EOF`. -/
def eofMarker : List ℕ := [37, 37, 69, 79, 70]

/-- Whether `pat` is an initial segment of `xs`. -/
def listStartsWith : List ℕ → List ℕ → Bool
  | [], _ => true
  | _ :: _, [] => false
  | a :: as, b :: bs => a = b && listStartsWith as bs

/-- Whether `pat` occurs contiguously in `xs` (Python `pat in bytes`). -/
def containsBytes (pat xs : List ℕ) : Bool :=
  (List.range (xs.length + 1)).any fun i => listStartsWith pat (xs.drop i)

/-- Size of a file, 0 if absent. -/
def fileSize (fs : String → Option (List ℕ)) (p : String) : ℕ :=
  ((fs p).map List.length).getD 0

/-- The checks of `_verify_pdf_file` on the bytes of an existing file
(image_processor.py lines 284-317): size at least 1000 bytes, first 4 bytes
`%PDF`, the marker `%%EOF` somewhere in the last 50 bytes (`f.seek(-50, 2)`
then `f.read()`; the size check guarantees the seek is in range). -/
def verify_pdf_bytes (bytes : List ℕ) : Bool :=
  if bytes.length < 1000 then false
  else if bytes.take 4 ≠ pdfMagic then false
  else containsBytes eofMarker (bytes.drop (bytes.length - 50))

/-- `_verify_pdf_file`: the file must exist and its bytes must pass
`verify_pdf_bytes`. -/
def verify_pdf_file (fs : String → Option (List ℕ)) (path : String) : Bool :=
  match fs path with
  | none => false
  | some bytes => verify_pdf_bytes bytes

/-- `ImageProcessor._convert_group_to_pdf` (lines 165-205): fail on an empty
group; drop assets that are missing or empty (`_validate_images`, `sizes` maps
asset path to its size when it exists); fail if none remain; then render
(`saveResult` is the oracle for the bytes Pillow wrote, `none` if saving
raised) and validate the written artifact, returning the artifact (identified
with its group number) on success and `none` on any failure. -/
def convert_group_to_pdf (sizes : String → Option ℕ) (saveResult : Option (List ℕ))
    (imagePaths : List String) (groupNum : ℕ) : Option ℕ :=
  if imagePaths.isEmpty then none
  else
    let validImages := imagePaths.filter fun p =>
      match sizes p with
      | some n => decide (0 < n)
      | none => false
    if validImages.isEmpty then none
    else
      match saveResult with
      | none => none
      | some bytes => if verify_pdf_bytes bytes then some groupNum else none

/-- `PDFMerger._validate_pdfs` (lines 63-92): keep paths that exist, have size
at least 1000 bytes and start with the `%PDF` header. -/
def validate_pdfs (fs : String → Option (List ℕ)) (paths : List String) : List String :=
  paths.filter fun p =>
    match fs p with
    | none => false
    | some bytes => decide (1000 ≤ bytes.length) && decide (bytes.take 4 = pdfMagic)

/-- The accumulator loop of `_merge_simple_optimized` (lines 167-180):
`best_pdf = None; max_size = 0`, update on strictly larger existing files. -/
def bestPdfAux (fs : String → Option (List ℕ)) :
    List String → Option String × ℕ → Option String × ℕ
  | [], acc => acc
  | p :: ps, acc =>
      match fs p with
      | none => bestPdfAux fs ps acc
      | some bytes =>
          if acc.2 < bytes.length then bestPdfAux fs ps (some p, bytes.length)
          else bestPdfAux fs ps acc

/-- The PDF selected by the fallback: the first strictly-largest existing one. -/
def bestPdf (fs : String → Option (List ℕ)) (paths : List String) : Option String :=
  (bestPdfAux fs paths (none, 0)).1

/-- `PDFMerger._merge_simple_optimized` (lines 164-196): copy the largest
existing PDF verbatim to the output path (`shutil.copy2`), return `True`
exactly when the copy exists afterwards; `False` when no PDF was found. -/
def merge_simple_optimized (fs : String → Option (List ℕ))
    (tempPdfs : List String) (outputPath : String) :
    (String → Option (List ℕ)) × Bool :=
  match bestPdf fs tempPdfs with
  | some best => (fun p => if p = outputPath then fs best else fs p, true)
  | none => (fs, false)

/-- `PDFMerger.merge_pdfs` (lines 22-61) at the byte level: fail on an empty
list, deduplicate (`fN`, a `list(set(...))` order), validate, fail if nothing
is valid; with PyPDF2 available attempt the structural merge (`tryPypdf`, an
oracle returning the new file system on success and `none` on failure), and on
its failure or unavailability fall back to `_merge_simple_optimized`. -/
def merge_pdfs (pypdf2Available : Bool) (fN : List String → List String)
    (tryPypdf : (String → Option (List ℕ)) → List String → String →
      Option (String → Option (List ℕ)))
    (fs : String → Option (List ℕ)) (tempPdfs : List String)
    (outputPath : String) : (String → Option (List ℕ)) × Bool :=
  if tempPdfs.isEmpty then (fs, false)
  else
    let uniquePdfs := fN tempPdfs
    let validPdfs := validate_pdfs fs uniquePdfs
    if validPdfs.isEmpty then (fs, false)
    else
      match (if pypdf2Available then tryPypdf fs validPdfs outputPath else none) with
      | some fs2 => (fs2, true)
      | none => merge_simple_optimized fs validPdfs outputPath

/-! ### Bounded caches (`_add_to_cache` in image_processor.py and pdf_merger.py) -/

/-- Insertion into a Python dict modelled as an insertion-ordered association
list: an existing key keeps its position and gets the new value, a new key is
appended at the end. -/
def dictInsert {V : Type} (cache : List (String × V)) (k : String) (v : V) :
    List (String × V) :=
  if (cache.map Prod.fst).contains k then
    cache.map fun p => if p.1 = k then (p.1, v) else p
  else cache ++ [(k, v)]

/-- `_add_to_cache` (image_processor.py lines 319-326 and pdf_merger.py lines
225-232): when the cache is at or above capacity, delete the oldest-inserted
key (`next(iter(cache))`), then insert. -/
def add_to_cache {V : Type} (maxCacheSize : ℕ) (cache : List (String × V))
    (k : String) (v : V) : List (String × V) :=
  let cache := if maxCacheSize ≤ cache.length then cache.drop 1 else cache
  dictInsert cache k v

/-- `self._max_cache_size = 50` (decoded-image cache, image_processor.py). -/
def imageCacheMaxSize : ℕ := 50

/-- `self._max_cache_size = 20` (decoded-page cache, pdf_merger.py). -/
def pdfCacheMaxSize : ℕ := 20

/-! ### Orchestrator (`native_converter.py`) -/

/-- `NativeConverter._cleanup_temp_files` (lines 144-170) restricted to its
observable effect on the extracted image files: each file is deleted,
per-file errors are swallowed (`deleteOk p = false` means deleting `p`
raised); the result is the list of files that remain. -/
def cleanup_temp_files_remaining (deleteOk : String → Bool)
    (imagePaths : List String) : List String :=
  imagePaths.filter fun p => !(deleteOk p)

/-- `NativeConverter.convert_cbr_to_pdf` (lines 26-56), parametrized by the
extraction result (`imagePaths`) and the outcome of
`convert_images_to_pdf` (`conversionOk`).  Returns the `(success, message)`
pair together with the extracted temp files that remain on disk afterwards.
Cleanup is invoked only on the success branch (line 49). -/
def convert_cbr_to_pdf (deleteOk : String → Bool) (imagePaths : List String)
    (conversionOk : Bool) : (Bool × String) × List String :=
  if imagePaths.isEmpty then ((false, "Aucune image extraite du CBR"), imagePaths)
  else if conversionOk then
    ((true, "Conversion réussie: " ++ Nat.repr imagePaths.length ++ " images"),
      cleanup_temp_files_remaining deleteOk imagePaths)
  else ((false, "Échec de la conversion des images en PDF"), imagePaths)

/-- `NativeConverter.convert_epub_to_pdf` (lines 98-109): returns immediately
with the fixed failure message and performs no filesystem operation; the
returned file system is the input one, untouched. -/
def convert_epub_to_pdf (fs : String → Option (List ℕ)) (epubPath : String)
    (outputPath : String) (options : ConvOptions) :
    (String → Option (List ℕ)) × Bool × String :=
  (fs, false, "Conversion EPUB non implémentée (utilisez CBZ/CBR)")

/-! ### Helper lemmas -/

lemma pyMin_half (a b : PyNum) : (pyMin a b).half = min a.half b.half := by
  unfold pyMin
  split <;> omega

lemma pyMax_half (a b : PyNum) : (pyMax a b).half = max a.half b.half := by
  unfold pyMax
  split <;> omega

lemma calc_half_ge (n w : ℕ) (vf f : Bool) :
    20 ≤ (calculate_optimal_group_size n w vf f).half := by
  unfold calculate_optimal_group_size
  simp only [pyMax_half, pyInt]
  omega

lemma dedup_ne_nil {α : Type} [DecidableEq α] {l : List α} (h : l ≠ []) :
    l.dedup ≠ [] := by
  cases l with
  | nil => exact absurd rfl h
  | cons a t =>
      have ha : a ∈ (a :: t).dedup := List.mem_dedup.mpr (List.mem_cons_self a t)
      intro hnil
      rw [hnil] at ha
      exact absurd ha (List.not_mem_nil a)

lemma chunkAux_nil {α : Type} (n fuel : ℕ) : chunkAux (α := α) n fuel [] = [] := by
  cases fuel <;> rfl

lemma chunkAux_flatten {α : Type} (n : ℕ) (hn : 1 ≤ n) :
    ∀ (fuel : ℕ) (xs : List α), xs.length ≤ fuel → (chunkAux n fuel xs).flatten = xs := by
  intro fuel
  induction fuel with
  | zero =>
      intro xs h
      have : xs = [] := List.length_eq_zero.mp (Nat.le_zero.mp h)
      subst this
      rfl
  | succ fuel ih =>
      intro xs h
      cases xs with
      | nil => rfl
      | cons x t =>
          show ((x :: t).take n :: chunkAux n fuel ((x :: t).drop n)).flatten = x :: t
          have hlen : ((x :: t).drop n).length ≤ fuel := by
            rw [List.length_cons] at h
            rw [List.length_drop, List.length_cons]
            omega
          rw [List.flatten_cons, ih ((x :: t).drop n) hlen, List.take_append_drop]

lemma chunkList_flatten {α : Type} (n : ℕ) (hn : 1 ≤ n) (xs : List α) :
    (chunkList n xs).flatten = xs :=
  chunkAux_flatten n hn xs.length xs le_rfl

lemma chunkList_ne_nil {α : Type} (n : ℕ) (hn : 1 ≤ n) (xs : List α) (hxs : xs ≠ []) :
    chunkList n xs ≠ [] := by
  intro h
  apply hxs
  rw [← chunkList_flatten n hn xs, h]
  rfl

lemma chunkAux_mem {α : Type} (n : ℕ) (hn : 1 ≤ n) :
    ∀ (fuel : ℕ) (xs : List α) (g : List α), g ∈ chunkAux n fuel xs →
      g.length ≤ n ∧ g ≠ [] := by
  intro fuel
  induction fuel with
  | zero => intro xs g hg; exact absurd hg (List.not_mem_nil g)
  | succ fuel ih =>
      intro xs g hg
      cases xs with
      | nil =>
          rw [chunkAux_nil] at hg
          exact absurd hg (List.not_mem_nil g)
      | cons x t =>
          rcases List.mem_cons.mp hg with h | h
          · subst h
            refine ⟨by simpa using Nat.min_le_left n (t.length + 1), ?_⟩
            cases n with
            | zero => omega
            | succ m => simp [List.take]
          · exact ih _ g h

lemma chunkAux_dropLast_length {α : Type} (n : ℕ) :
    ∀ (fuel : ℕ) (xs : List α) (g : List α), g ∈ (chunkAux n fuel xs).dropLast →
      g.length = n := by
  intro fuel
  induction fuel with
  | zero => intro xs g hg; exact absurd hg (List.not_mem_nil g)
  | succ fuel ih =>
      intro xs g hg
      cases xs with
      | nil =>
          rw [chunkAux_nil] at hg
          exact absurd hg (List.not_mem_nil g)
      | cons x t =>
          by_cases hrest : chunkAux n fuel ((x :: t).drop n) = []
          · simp only [chunkAux, hrest, List.dropLast_single] at hg
            exact absurd hg (List.not_mem_nil g)
          · simp only [chunkAux] at hg
            rw [List.dropLast_cons_of_ne_nil hrest] at hg
            rcases List.mem_cons.mp hg with h | h
            · subst h
              have hdrop : (x :: t).drop n ≠ [] := by
                intro hd
                rw [hd, chunkAux_nil] at hrest
                exact hrest rfl
              have hlt : n < t.length + 1 := by
                by_contra hc
                apply hdrop
                apply List.drop_eq_nil_of_le
                rw [List.length_cons]
                omega
              rw [List.length_take, List.length_cons]
              omega
            · exact ih _ g h

lemma chunkList_dropLast_length {α : Type} (n : ℕ) (xs : List α) (g : List α)
    (hg : g ∈ (chunkList n xs).dropLast) : g.length = n :=
  chunkAux_dropLast_length n xs.length xs g hg

lemma collectedAux_map_some {α : Type} (l : List α) :
    ∀ i : ℕ, collectedAux i (l.map some) = l.enumFrom i := by
  induction l with
  | nil => intro i; rfl
  | cons a t ih =>
      intro i
      simp only [List.map_cons, collectedAux, List.enumFrom]
      rw [ih]

lemma collectedArtifacts_map_some {α : Type} (l : List α) :
    collectedArtifacts (l.map some) = l.enum := by
  unfold collectedArtifacts List.enum
  exact collectedAux_map_some l 0

lemma collectedAux_length {α : Type} (results : List (Option α)) :
    ∀ i : ℕ, (collectedAux i results).length = successCount results := by
  induction results with
  | nil => intro i; rfl
  | cons r rest ih =>
      intro i
      cases r with
      | some a => simp [collectedAux, successCount, List.filter] at ih ⊢; rw [ih]
      | none => simp [collectedAux, successCount, List.filter] at ih ⊢; rw [ih]

lemma collectedAux_mem {α : Type} (results : List (Option α)) :
    ∀ (i j : ℕ) (a : α), (j, a) ∈ collectedAux i results ↔
      ∃ k : ℕ, j = i + k ∧ results[k]? = some (some a) := by
  induction results with
  | nil =>
      intro i j a
      simp [collectedAux]
  | cons r rest ih =>
      intro i j a
      cases r with
      | some b =>
          simp only [collectedAux, List.mem_cons, Prod.mk.injEq, ih]
          constructor
          · rintro (⟨h1, h2⟩ | ⟨k, hk1, hk2⟩)
            · exact ⟨0, by omega, by simp [h2]⟩
            · exact ⟨k + 1, by omega, by simpa using hk2⟩
          · rintro ⟨k, hk1, hk2⟩
            cases k with
            | zero =>
                left
                simp at hk2
                exact ⟨by omega, hk2.symm⟩
            | succ m =>
                right
                exact ⟨m, by omega, by simpa using hk2⟩
      | none =>
          simp only [collectedAux, ih]
          constructor
          · rintro ⟨k, hk1, hk2⟩
            exact ⟨k + 1, by omega, by simpa using hk2⟩
          · rintro ⟨k, hk1, hk2⟩
            cases k with
            | zero => simp at hk2
            | succ m => exact ⟨m, by omega, by simpa using hk2⟩

lemma collectedArtifacts_mem {α : Type} (results : List (Option α)) (j : ℕ) (a : α) :
    (j, a) ∈ collectedArtifacts results ↔ results[j]? = some (some a) := by
  unfold collectedArtifacts
  rw [collectedAux_mem]
  constructor
  · rintro ⟨k, hk1, hk2⟩
    subst hk1
    simpa using hk2
  · intro h
    exact ⟨j, by omega, h⟩

lemma successCount_map_some {α : Type} (l : List α) :
    successCount (l.map some) = l.length := by
  unfold successCount
  rw [List.filter_map]
  simp [Function.comp]

lemma map_getD_range {α : Type} (l : List α) (d : α) :
    (List.range l.length).map (fun i => l.getD i d) = l := by
  apply List.ext_getElem
  · simp
  · intro n h1 h2
    rw [List.getElem_map, List.getElem_range, List.getD_eq_getElem l d h2]

lemma flatten_length_of_perm {β : Type} (l1 l2 : List (List β)) (h : l1.Perm l2) :
    l1.flatten.length = l2.flatten.length := by
  rw [List.length_flatten, List.length_flatten]
  exact (h.map _).sum_eq

lemma paths3_perm (fS : List String → List String) (hS : PySet fS)
    (imagePaths : List String) (mo : String) :
    (applyMergeOrder mo (sortNaturalKey
      (if (fS imagePaths).length ≠ imagePaths.length then fS imagePaths
       else imagePaths))).Perm imagePaths.dedup := by
  have h1 : (fS imagePaths).Perm imagePaths.dedup := hS imagePaths
  by_cases hc : (fS imagePaths).length ≠ imagePaths.length
  · rw [if_pos hc]
    exact ((applyMergeOrder_perm mo _).trans (stableSort_perm _ _)).trans h1
  · rw [if_neg hc]
    push_neg at hc
    have hlen : imagePaths.dedup.length = imagePaths.length := by
      rw [← h1.length_eq, hc]
    have hded : imagePaths.dedup = imagePaths :=
      (List.dedup_sublist imagePaths).eq_of_length hlen
    calc (applyMergeOrder mo (sortNaturalKey imagePaths)).Perm imagePaths :=
          (applyMergeOrder_perm mo _).trans (stableSort_perm _ _)
      _ = imagePaths.dedup := hded.symm

lemma isEmpty_false_of_ne_nil {α : Type} {l : List α} (h : l ≠ []) :
    l.isEmpty = false := by
  cases l with
  | nil => exact absurd rfl h
  | cons a t => rfl

lemma calc_half_eq_spec (n w : ℕ) (vf f : Bool) :
    (calculate_optimal_group_size n w vf f).half = specGroupSizeHalf n w vf f := by
  simp only [calculate_optimal_group_size, specGroupSizeHalf, pyMax_half,
    pyMin_half, apply_ite PyNum.half, pyInt]
  split_ifs <;> omega

lemma calc_c10_eval (N : ℕ) (h1 : 38 ≤ N) (h2 : N ≤ 1000) :
    calculate_optimal_group_size N 1 false false = ⟨75, true⟩ := by
  unfold calculate_optimal_group_size pyInt pyMin pyMax
  norm_num
  split_ifs <;> simp_all <;> omega

lemma renderResults_all (G : ℕ) :
    renderResults (fun _ => true) G = (List.range G).map some := by
  unfold renderResults
  simp

lemma mergeStage_all_success (fN : List ℕ → List ℕ) (hN : PySet fN)
    (fallbackPick : List ℕ → Option ℕ) (groups : List (List String))
    (hg : groups ≠ []) (hfl : groups.flatten ≠ []) :
    ∃ pages, mergeStage fN (fun _ => true) true fallbackPick groups = some pages ∧
      pages.length = groups.flatten.length := by
  have hG1 : 1 ≤ groups.length := List.length_pos.mpr hg
  have hgate : ¬ (successCount ((List.range groups.length).map some) <
      minSuccessRate ((List.range groups.length).map some).length) := by
    rw [successCount_map_some, List.length_map, List.length_range]
    unfold minSuccessRate
    omega
  have hcoll : convert_groups_parallel (renderResults (fun _ => true) groups.length) =
      (List.range groups.length).enum := by
    rw [renderResults_all]
    unfold convert_groups_parallel
    rw [if_neg hgate, collectedArtifacts_map_some]
  have htpne : ((List.range groups.length).enum) ≠ [] := by
    have : ((List.range groups.length).enum).length = groups.length := by
      simp [List.enum_length]
    intro hc
    rw [hc] at this
    simp at this
    omega
  have hsnd : (((sortByGroupNum ((List.range groups.length).enum))).map Prod.snd).Perm
      (List.range groups.length) := by
    have h := (stableSort_perm (fun a b => decide (a.1 ≤ b.1))
      ((List.range groups.length).enum)).map Prod.snd
    rw [List.enum_map_snd] at h
    exact h
  set SP := ((sortByGroupNum ((List.range groups.length).enum))).map Prod.snd with hSP
  have hSPnodup : SP.Nodup := hsnd.nodup_iff.mpr (List.nodup_range groups.length)
  have hUP : (fN SP).Perm (List.range groups.length) :=
    (hN SP).trans (by rw [List.dedup_eq_self.mpr hSPnodup]; exact hsnd)
  have hUPne : fN SP ≠ [] := by
    intro hc
    have := hUP.length_eq
    rw [hc, List.length_range] at this
    simp at this
    omega
  have hUnodup : (fN SP).Nodup := hUP.nodup_iff.mpr (List.nodup_range groups.length)
  have hU2 : (fN (fN SP)).Perm (List.range groups.length) :=
    (hN (fN SP)).trans (by rw [List.dedup_eq_self.mpr hUnodup]; exact hUP)
  have hpagelen : (((fN (fN SP)).map fun i => groups.getD i []).flatten).length =
      groups.flatten.length := by
    rw [flatten_length_of_perm _ _ (hU2.map fun i => groups.getD i [])]
    rw [map_getD_range groups []]
  have hpagesne : (((fN (fN SP)).map fun i => groups.getD i []).flatten) ≠ [] := by
    intro hc
    apply hfl
    apply List.length_eq_zero.mp
    rw [← hpagelen, hc]
    rfl
  refine ⟨((fN (fN SP)).map fun i => groups.getD i []).flatten, ?_, hpagelen⟩
  simp only [mergeStage, merge_pdfs_pages]
  rw [hcoll]
  rw [← hSP]
  have hU2ne : fN (fN SP) ≠ [] := by
    intro hc
    have := hU2.length_eq
    rw [hc, List.length_range] at this
    simp at this
    omega
  rw [isEmpty_false_of_ne_nil htpne, isEmpty_false_of_ne_nil hUPne,
    isEmpty_false_of_ne_nil hU2ne, isEmpty_false_of_ne_nil hpagesne]
  simp only [Bool.false_eq_true, if_false, if_true]

lemma bestPdfAux_spec (fs : String → Option (List ℕ)) :
    ∀ (paths : List String) (acc : Option String × ℕ),
      (∀ p ∈ paths, fileSize fs p ≤ (bestPdfAux fs paths acc).2) ∧
      acc.2 ≤ (bestPdfAux fs paths acc).2 ∧
      (bestPdfAux fs paths acc = acc ∨
        ∃ p ∈ paths, (bestPdfAux fs paths acc).1 = some p ∧
          (bestPdfAux fs paths acc).2 = fileSize fs p) := by
  intro paths
  induction paths with
  | nil =>
      intro acc
      exact ⟨by simp, le_rfl, Or.inl rfl⟩
  | cons q qs ih =>
      intro acc
      show (∀ p ∈ q :: qs, fileSize fs p ≤ (bestPdfAux fs (q :: qs) acc).2) ∧ _
      unfold bestPdfAux
      cases hq : fs q with
      | none =>
          obtain ⟨h1, h2, h3⟩ := ih acc
          refine ⟨?_, h2, ?_⟩
          · intro p hp
            rcases List.mem_cons.mp hp with rfl | hp
            · simp [fileSize, hq]
            · exact h1 p hp
          · rcases h3 with h | ⟨p, hp, h4, h5⟩
            · exact Or.inl h
            · exact Or.inr ⟨p, List.mem_cons_of_mem _ hp, h4, h5⟩
      | some bytes =>
          dsimp only
          by_cases hlt : acc.2 < bytes.length
          · rw [if_pos hlt]
            obtain ⟨h1, h2, h3⟩ := ih (some q, bytes.length)
            refine ⟨?_, le_trans (le_of_lt hlt) h2, ?_⟩
            · intro p hp
              rcases List.mem_cons.mp hp with rfl | hp
              · calc fileSize fs p = bytes.length := by simp [fileSize, hq]
                  _ ≤ _ := h2
              · exact h1 p hp
            · rcases h3 with h | ⟨p, hp, h4, h5⟩
              · refine Or.inr ⟨q, List.mem_cons_self q qs, ?_, ?_⟩
                · rw [h]
                · rw [h]
                  simp [fileSize, hq]
              · exact Or.inr ⟨p, List.mem_cons_of_mem _ hp, h4, h5⟩
          · rw [if_neg hlt]
            obtain ⟨h1, h2, h3⟩ := ih acc
            refine ⟨?_, h2, ?_⟩
            · intro p hp
              rcases List.mem_cons.mp hp with rfl | hp
              · calc fileSize fs p = bytes.length := by simp [fileSize, hq]
                  _ ≤ acc.2 := le_of_not_lt hlt
                  _ ≤ _ := h2
              · exact h1 p hp
            · rcases h3 with h | ⟨p, hp, h4, h5⟩
              · exact Or.inl h
              · exact Or.inr ⟨p, List.mem_cons_of_mem _ hp, h4, h5⟩

lemma verify_pdf_bytes_iff (b : List ℕ) :
    verify_pdf_bytes b = true ↔
      1000 ≤ b.length ∧ b.take 4 = pdfMagic ∧
        containsBytes eofMarker (b.drop (b.length - 50)) = true := by
  unfold verify_pdf_bytes
  split_ifs with h1 h2
  · constructor
    · intro h
      exact absurd h (by simp)
    · rintro ⟨hl, -, -⟩
      omega
  · constructor
    · intro h
      exact absurd h (by simp)
    · rintro ⟨-, ht, -⟩
      exact absurd ht h2
  · constructor
    · intro h
      exact ⟨by omega, not_not.mp h2, h⟩
    · rintro ⟨-, -, h⟩
      exact h

lemma mergeStage_all_fail (fN : List ℕ → List ℕ) (pypdf2Available : Bool)
    (fallbackPick : List ℕ → Option ℕ) (groups : List (List String)) :
    mergeStage fN (fun _ => false) pypdf2Available fallbackPick groups = none := by
  have h1 : convert_groups_parallel (renderResults (fun _ => false) groups.length) = [] := by
    unfold convert_groups_parallel
    rw [if_pos]
    have : renderResults (fun _ => false) groups.length =
        (List.range groups.length).map fun _ => (none : Option ℕ) := by
      unfold renderResults
      simp
    rw [this]
    unfold successCount minSuccessRate
    simp [List.filter_eq_nil_iff]
  simp only [mergeStage]
  rw [h1]
  rfl

lemma dictInsert_length {V : Type} (cache : List (String × V)) (k : String) (v : V) :
    (dictInsert cache k v).length =
      if (cache.map Prod.fst).contains k then cache.length else cache.length + 1 := by
  unfold dictInsert
  split <;> simp

lemma add_to_cache_length_le {V : Type} (m : ℕ) (hm : 1 ≤ m)
    (cache : List (String × V)) (k : String) (v : V)
    (hc : cache.length ≤ m) : (add_to_cache m cache k v).length ≤ m := by
  unfold add_to_cache
  rw [dictInsert_length]
  split_ifs <;> (try simp only [List.length_drop]) <;> omega

set_option maxRecDepth 40000

/-! ### Claim theorems -/

/-- C2, counterexample to the claim as stated: with G = 4 groups of which
exactly 1 succeeded, fewer than `ceil(4/3) = 2` groups succeeded, yet
`_convert_groups_parallel` does not return the empty list: it passes the
collected artifact on, because the implemented gate is `max(1, G // 3) = 1`. -/
theorem c2_counterexample :
    successCount ([some 0, none, none, none] : List (Option ℕ)) <
      (([some 0, none, none, none] : List (Option ℕ)).length + 2) / 3 ∧
    convert_groups_parallel ([some 0, none, none, none] : List (Option ℕ)) =
      [(0, 0)] := by
  decide

/-- C2 (amended): the success-rate gate of `_convert_groups_parallel` requires
at least `max(1, floor(G/3))` successful groups (not `ceil(G/3)`): below that
threshold the returned artifact list is empty, at or above it the collected
artifacts are all passed on; and a run in which every group fails (hence any
run failing the gate) makes `convert_images_to_pdf` report failure with no
output document. -/
theorem c2_gate_floor (results : List (Option ℕ)) :
    (successCount results < minSuccessRate results.length →
      convert_groups_parallel results = []) ∧
    (minSuccessRate results.length ≤ successCount results →
      convert_groups_parallel results = collectedArtifacts results) ∧
    ∀ (fS : List String → List String) (fN : List ℕ → List ℕ)
      (maxWorkers : ℕ) (pypdf2Available : Bool) (fallbackPick : List ℕ → Option ℕ)
      (imagePaths : List String) (options : ConvOptions),
      convert_images_to_pdf fS fN maxWorkers (fun _ => false) pypdf2Available
        fallbackPick imagePaths options = none := by
  refine ⟨?_, ?_, ?_⟩
  · intro h
    unfold convert_groups_parallel
    rw [if_pos h]
  · intro h
    unfold convert_groups_parallel
    rw [if_neg (not_lt.mpr h)]
  · intro fS fN maxWorkers pypdf2Available fallbackPick imagePaths options
    simp only [convert_images_to_pdf]
    cases hp : partitionGroups
        (applyMergeOrder options.mergeOrder (sortNaturalKey
          (if (fS imagePaths).length ≠ imagePaths.length then fS imagePaths
           else imagePaths)))
        (calculate_optimal_group_size
          (applyMergeOrder options.mergeOrder (sortNaturalKey
            (if (fS imagePaths).length ≠ imagePaths.length then fS imagePaths
             else imagePaths))).length maxWorkers options.veryfastMode
          options.fastMode) with
    | none => rfl
    | some groups => exact mergeStage_all_fail fN pypdf2Available fallbackPick groups

/-- C2, witness: with G = 3 groups and exactly 1 success the gate
`max(1, 3 // 3) = 1` passes and the collected artifact is handed on. -/
theorem c2_witness :
    convert_groups_parallel ([some 0, none, none] : List (Option ℕ)) =
      collectedArtifacts ([some 0, none, none] : List (Option ℕ)) :=
  (c2_gate_floor [some 0, none, none]).2.1 (by decide)

/-- C3: `convert_epub_to_pdf` returns `(False, ...)` with the fixed
"not implemented, use the other formats" message immediately, for every input
path and options value, and leaves every file of the file system untouched
(zero filesystem writes). -/
theorem c3_epub_unsupported (fs : String → Option (List ℕ))
    (epubPath outputPath : String) (options : ConvOptions) :
    (convert_epub_to_pdf fs epubPath outputPath options).2.1 = false ∧
    (convert_epub_to_pdf fs epubPath outputPath options).2.2 =
      "Conversion EPUB non implémentée (utilisez CBZ/CBR)" ∧
    ∀ p : String, (convert_epub_to_pdf fs epubPath outputPath options).1 p = fs p :=
  ⟨rfl, rfl, fun _ => rfl⟩

/-- C4, counterexample to the claim as stated: after a failed conversion
(`convert_images_to_pdf` returned `False`) of one extracted image, the temp
image file is still on disk even though deleting it would have succeeded:
cleanup does not run on the failure path of `convert_cbr_to_pdf`. -/
theorem c4_counterexample :
    (convert_cbr_to_pdf (fun _ => true) ["temp/page1.png"] false).2 =
      ["temp/page1.png"] ∧
    (convert_cbr_to_pdf (fun _ => true) ["temp/page1.png"] false).1.1 = false := by
  decide

/-- C4 (amended): temp-image cleanup in `convert_cbr_to_pdf` runs only when
the conversion succeeds; on failure the extracted temp files are left behind
untouched.  When cleanup does run, per-file deletion errors are swallowed
(files that fail to delete remain on disk) and never change the
`(success, message)` result: that pair is independent of which deletions
succeed. -/
theorem c4_cleanup_only_on_success (deleteOk deleteOk2 : String → Bool)
    (imagePaths : List String) (conversionOk : Bool) :
    (conversionOk = true → imagePaths ≠ [] →
      (convert_cbr_to_pdf deleteOk imagePaths conversionOk).2 =
        cleanup_temp_files_remaining deleteOk imagePaths ∧
      (convert_cbr_to_pdf deleteOk imagePaths conversionOk).1.1 = true) ∧
    (conversionOk = false →
      (convert_cbr_to_pdf deleteOk imagePaths conversionOk).2 = imagePaths) ∧
    (convert_cbr_to_pdf deleteOk imagePaths conversionOk).1 =
      (convert_cbr_to_pdf deleteOk2 imagePaths conversionOk).1 := by
  refine ⟨?_, ?_, ?_⟩
  · intro hok hne
    unfold convert_cbr_to_pdf
    rw [hok, isEmpty_false_of_ne_nil hne]
    exact ⟨rfl, rfl⟩
  · intro hok
    unfold convert_cbr_to_pdf
    rw [hok]
    split_ifs <;> first | rfl | contradiction
  · unfold convert_cbr_to_pdf
    split_ifs <;> rfl

/-- C4, witness: a successful conversion runs cleanup (here every deletion
fails, so the files remain) and still reports success. -/
theorem c4_witness :
    (convert_cbr_to_pdf (fun _ => false) ["temp/a.png"] true).2 =
      cleanup_temp_files_remaining (fun _ => false) ["temp/a.png"] ∧
    (convert_cbr_to_pdf (fun _ => false) ["temp/a.png"] true).1.1 = true :=
  (c4_cleanup_only_on_success (fun _ => false) (fun _ => true)
    ["temp/a.png"] true).1 rfl (by decide)

/-- C5, counterexample to the claim as stated: for N = 50 images, 1 worker and
normal speed mode the computed group size is the float `37.5`
(`half = 75`, `isFloat = true`), and the asset list is NOT partitioned into
consecutive groups of this size: `range()` rejects the float step
(`TypeError`), so the grouping step produces nothing. -/
theorem c5_counterexample :
    (calculate_optimal_group_size 50 1 false false).half = 75 ∧
    (calculate_optimal_group_size 50 1 false false).isFloat = true ∧
    partitionGroups (List.replicate 50 "page.png")
      (calculate_optimal_group_size 50 1 false false) = none := by
  decide

/-- C5 (amended): the value computed by `_calculate_optimal_group_size` equals
the claimed formula (base 60/40/25 by speed mode, integer-halved when W > 6,
times 1.5 when W < 3, capped at 30 when N > 1000, floored at 15 when N < 100,
finally `max(10, min(computed, N // W))`; values scaled by 2 to stay in ℕ);
but the ordered asset list is partitioned into consecutive groups of this size
(each group non-empty, every group except possibly the last of full size, the
partition covering the list exactly, groups indexed in partition order) only
when the computed value is a Python int; when it is a float the partition step
raises `TypeError` and no groups are produced. -/
theorem c5_group_size_and_partition (n w : ℕ) (vf f : Bool) (paths : List String) :
    (calculate_optimal_group_size n w vf f).half = specGroupSizeHalf n w vf f ∧
    ((calculate_optimal_group_size paths.length w vf f).isFloat = false →
      partitionGroups paths (calculate_optimal_group_size paths.length w vf f) =
        some (chunkList ((calculate_optimal_group_size paths.length w vf f).half / 2) paths) ∧
      (chunkList ((calculate_optimal_group_size paths.length w vf f).half / 2) paths).flatten
        = paths ∧
      (∀ g ∈ chunkList ((calculate_optimal_group_size paths.length w vf f).half / 2) paths,
        g.length ≤ (calculate_optimal_group_size paths.length w vf f).half / 2 ∧ g ≠ []) ∧
      (∀ g ∈ (chunkList ((calculate_optimal_group_size paths.length w vf f).half / 2)
          paths).dropLast,
        g.length = (calculate_optimal_group_size paths.length w vf f).half / 2)) ∧
    ((calculate_optimal_group_size paths.length w vf f).isFloat = true →
      partitionGroups paths (calculate_optimal_group_size paths.length w vf f) = none) := by
  have hge := calc_half_ge paths.length w vf f
  have hn1 : 1 ≤ (calculate_optimal_group_size paths.length w vf f).half / 2 := by
    omega
  refine ⟨calc_half_eq_spec n w vf f, ?_, ?_⟩
  · intro hint
    refine ⟨?_, chunkList_flatten _ hn1 paths, ?_, ?_⟩
    · unfold partitionGroups
      rw [hint]
      simp
    · intro g hg
      exact chunkAux_mem _ hn1 paths.length paths g hg
    · intro g hg
      exact chunkList_dropLast_length _ paths g hg
  · intro hint
    unfold partitionGroups
    rw [hint]
    simp

/-- C5, witness: with 2 images and 3 workers the computed size is the int 10
and the partition is the single group containing both images. -/
theorem c5_witness :
    (calculate_optimal_group_size 2 3 false false).isFloat = false ∧
    partitionGroups ["b.png", "a.png"] (calculate_optimal_group_size 2 3 false false) =
      some (chunkList ((calculate_optimal_group_size 2 3 false false).half / 2)
        ["b.png", "a.png"]) :=
  ⟨by decide,
    ((c5_group_size_and_partition 2 3 false false ["b.png", "a.png"]).2.1
      (by decide)).1⟩

/-- C8: `_verify_pdf_file` succeeds exactly when the file exists, its size is
at least 1000 bytes, its first 4 bytes are the `%PDF` magic header and its
last 50 bytes contain the `%%EOF` marker; a group whose written artifact fails
these checks yields `None` from `_convert_group_to_pdf`; and the run continues:
the coordinator collects exactly the artifacts of the groups that did succeed,
a failed group never removing another group from the collection. -/
theorem c8_verify_checks :
    (∀ (fs : String → Option (List ℕ)) (path : String),
      verify_pdf_file fs path = true ↔
        ∃ bytes, fs path = some bytes ∧ 1000 ≤ bytes.length ∧
          bytes.take 4 = pdfMagic ∧
          containsBytes eofMarker (bytes.drop (bytes.length - 50)) = true) ∧
    (∀ (sizes : String → Option ℕ) (imagePaths : List String) (groupNum : ℕ)
      (bytes : List ℕ), verify_pdf_bytes bytes = false →
        convert_group_to_pdf sizes (some bytes) imagePaths groupNum = none) ∧
    ∀ (results : List (Option ℕ)) (j a : ℕ),
      (j, a) ∈ collectedArtifacts results ↔ results[j]? = some (some a) := by
  refine ⟨?_, ?_, ?_⟩
  · intro fs path
    unfold verify_pdf_file
    cases hf : fs path with
    | none =>
        simp
    | some b =>
        rw [verify_pdf_bytes_iff]
        constructor
        · rintro ⟨h1, h2, h3⟩
          exact ⟨b, rfl, h1, h2, h3⟩
        · rintro ⟨bytes, hb, h1, h2, h3⟩
          cases hb
          exact ⟨h1, h2, h3⟩
  · intro sizes imagePaths groupNum bytes hv
    simp only [convert_group_to_pdf, hv]
    split_ifs <;> first | rfl | contradiction
  · exact collectedArtifacts_mem

/-- C8, witness: an empty byte string fails validation (too small), so the
group is marked failed. -/
theorem c8_witness :
    convert_group_to_pdf (fun _ => some 5) (some []) ["temp/p1.png"] 0 = none :=
  c8_verify_checks.2.1 (fun _ => some 5) ["temp/p1.png"] 0 [] (by decide)

/-- C9: the two bounded caches never exceed their fixed capacities (50 for the
decoded-image cache, 20 for the decoded-page cache): if a cache holds at most
its capacity before an insertion via `_add_to_cache` (which first evicts the
oldest-inserted key when at or above capacity), it holds at most its capacity
afterwards. -/
theorem c9_cache_bound (V : Type) (cache : List (String × V)) (k : String) (v : V) :
    (cache.length ≤ imageCacheMaxSize →
      (add_to_cache imageCacheMaxSize cache k v).length ≤ imageCacheMaxSize) ∧
    (cache.length ≤ pdfCacheMaxSize →
      (add_to_cache pdfCacheMaxSize cache k v).length ≤ pdfCacheMaxSize) :=
  ⟨fun hc => add_to_cache_length_le imageCacheMaxSize (by decide) cache k v hc,
   fun hc => add_to_cache_length_le pdfCacheMaxSize (by decide) cache k v hc⟩

/-- C9, witness: inserting a fresh key into a full 2-entry toy instance of the
same structure stays within the capacity at the concrete capacities. -/
theorem c9_witness :
    (add_to_cache imageCacheMaxSize [("a", 0), ("b", 1)] "c" 2).length ≤
      imageCacheMaxSize ∧
    (add_to_cache pdfCacheMaxSize [("a", 0), ("b", 1)] "c" 2).length ≤
      pdfCacheMaxSize :=
  ⟨(c9_cache_bound ℕ [("a", 0), ("b", 1)] "c" 2).1 (by decide),
   (c9_cache_bound ℕ [("a", 0), ("b", 1)] "c" 2).2 (by decide)⟩

/-- C7: whenever PyPDF2 is unavailable, `merge_pdfs` selects the single
largest validated artifact by file size, copies its bytes verbatim to the
output path (so the output is byte-identical to that artifact, and any page
count of the output equals that one artifact's, not the sum across all
artifacts), touches no other file, and returns true exactly because the copy
exists afterwards. -/
theorem c7_fallback_copies_largest
    (fN : List String → List String) (hN : PySet fN)
    (tryPypdf : (String → Option (List ℕ)) → List String → String →
      Option (String → Option (List ℕ)))
    (fs : String → Option (List ℕ)) (tempPdfs : List String) (outputPath : String)
    (hvalid : validate_pdfs fs (fN tempPdfs) ≠ []) :
    ∃ best,
      bestPdf fs (validate_pdfs fs (fN tempPdfs)) = some best ∧
      best ∈ validate_pdfs fs (fN tempPdfs) ∧
      (∀ q ∈ validate_pdfs fs (fN tempPdfs), fileSize fs q ≤ fileSize fs best) ∧
      (merge_pdfs false fN tryPypdf fs tempPdfs outputPath).2 = true ∧
      (merge_pdfs false fN tryPypdf fs tempPdfs outputPath).1 outputPath = fs best ∧
      ∀ p : String, p ≠ outputPath →
        (merge_pdfs false fN tryPypdf fs tempPdfs outputPath).1 p = fs p := by
  have htne : tempPdfs ≠ [] := by
    intro hc
    subst hc
    apply hvalid
    have h0 : fN ([] : List String) = [] := List.Perm.eq_nil (by simpa using hN [])
    rw [h0]
    rfl
  obtain ⟨q0, hq0⟩ := List.exists_mem_of_ne_nil _ hvalid
  have hq0size : 1000 ≤ fileSize fs q0 := by
    have hmem := List.mem_filter.mp hq0
    have hpred := hmem.2
    cases hf : fs q0 with
    | none => rw [hf] at hpred; simp at hpred
    | some bytes =>
        rw [hf] at hpred
        simp only [Bool.and_eq_true, decide_eq_true_eq] at hpred
        simp [fileSize, hf, hpred.1]
  obtain ⟨hall, hacc, hcase⟩ := bestPdfAux_spec fs (validate_pdfs fs (fN tempPdfs)) (none, 0)
  rcases hcase with heq | ⟨best, hbmem, hb1, hb2⟩
  · exfalso
    have h := hall q0 hq0
    rw [heq] at h
    omega
  · have hb1' : bestPdf fs (validate_pdfs fs (fN tempPdfs)) = some best := hb1
    have hmerge : merge_pdfs false fN tryPypdf fs tempPdfs outputPath =
        (fun p => if p = outputPath then fs best else fs p, true) := by
      simp only [merge_pdfs]
      rw [isEmpty_false_of_ne_nil htne, isEmpty_false_of_ne_nil hvalid]
      simp only [Bool.false_eq_true, if_false]
      simp only [merge_simple_optimized]
      rw [hb1']
    refine ⟨best, hb1', hbmem, ?_, ?_, ?_, ?_⟩
    · intro q hq
      calc fileSize fs q ≤ (bestPdfAux fs (validate_pdfs fs (fN tempPdfs)) (none, 0)).2 :=
            hall q hq
        _ = fileSize fs best := hb2
    · rw [hmerge]
    · rw [hmerge]
      simp
    · intro p hp
      rw [hmerge]
      simp [hp]

/-- Two intermediate artifacts for the C7 witness. -/
def c7TempPdfs : List String := ["temp/group_0.pdf", "temp/group_1.pdf"]

/-- A file system holding the two artifacts (1000 and 1001 bytes, both valid
PDFs by the merger's validation). -/
def c7Fs : String → Option (List ℕ) := fun p =>
  if p = "temp/group_0.pdf" then some (pdfMagic ++ List.replicate 996 0)
  else if p = "temp/group_1.pdf" then some (pdfMagic ++ List.replicate 997 0)
  else none

/-- C7, witness: the degraded fallback on two concrete artifacts copies the
larger one to the output path and reports success. -/
theorem c7_witness :
    ∃ best,
      bestPdf c7Fs (validate_pdfs c7Fs (pySetKeep c7TempPdfs)) = some best ∧
      best ∈ validate_pdfs c7Fs (pySetKeep c7TempPdfs) ∧
      (∀ q ∈ validate_pdfs c7Fs (pySetKeep c7TempPdfs),
        fileSize c7Fs q ≤ fileSize c7Fs best) ∧
      (merge_pdfs false pySetKeep (fun _ _ _ => none) c7Fs c7TempPdfs
        "out.pdf").2 = true ∧
      (merge_pdfs false pySetKeep (fun _ _ _ => none) c7Fs c7TempPdfs
        "out.pdf").1 "out.pdf" = c7Fs best ∧
      ∀ p : String, p ≠ "out.pdf" →
        (merge_pdfs false pySetKeep (fun _ _ _ => none) c7Fs c7TempPdfs
          "out.pdf").1 p = c7Fs p :=
  c7_fallback_copies_largest pySetKeep pySet_pySetKeep (fun _ _ _ => none)
    c7Fs c7TempPdfs "out.pdf" (by decide)

/-- C6: duplicates are removed by path before grouping, so when every group
renders successfully and the structural merge is available, the final document
exists and its page count equals the number of unique extracted paths, for
every hash-set iteration order, worker count, and options value (provided the
computed group size is an int, so the partition step does not fail). -/
theorem c6_dedup_page_count
    (fS : List String → List String) (fN : List ℕ → List ℕ)
    (hS : PySet fS) (hN : PySet fN) (maxWorkers : ℕ)
    (fallbackPick : List ℕ → Option ℕ)
    (imagePaths : List String) (options : ConvOptions)
    (hne : imagePaths ≠ [])
    (hint : (calculate_optimal_group_size imagePaths.dedup.length maxWorkers
      options.veryfastMode options.fastMode).isFloat = false) :
    ∃ pages,
      convert_images_to_pdf fS fN maxWorkers (fun _ => true) true fallbackPick
        imagePaths options = some pages ∧
      pages.length = imagePaths.dedup.length := by
  have hperm := paths3_perm fS hS imagePaths options.mergeOrder
  have hlen := hperm.length_eq
  have hge := calc_half_ge imagePaths.dedup.length maxWorkers
    options.veryfastMode options.fastMode
  have hn1 : 1 ≤ (calculate_optimal_group_size imagePaths.dedup.length maxWorkers
      options.veryfastMode options.fastMode).half / 2 := by
    omega
  have hP3ne : applyMergeOrder options.mergeOrder (sortNaturalKey
      (if (fS imagePaths).length ≠ imagePaths.length then fS imagePaths
       else imagePaths)) ≠ [] := by
    intro hc
    apply dedup_ne_nil hne
    apply List.length_eq_zero.mp
    rw [← hlen, hc]
    rfl
  have hgne : chunkList ((calculate_optimal_group_size imagePaths.dedup.length
      maxWorkers options.veryfastMode options.fastMode).half / 2)
      (applyMergeOrder options.mergeOrder (sortNaturalKey
        (if (fS imagePaths).length ≠ imagePaths.length then fS imagePaths
         else imagePaths))) ≠ [] :=
    chunkList_ne_nil _ hn1 _ hP3ne
  have hflne : (chunkList ((calculate_optimal_group_size imagePaths.dedup.length
      maxWorkers options.veryfastMode options.fastMode).half / 2)
      (applyMergeOrder options.mergeOrder (sortNaturalKey
        (if (fS imagePaths).length ≠ imagePaths.length then fS imagePaths
         else imagePaths)))).flatten ≠ [] := by
    rw [chunkList_flatten _ hn1]
    exact hP3ne
  obtain ⟨pages, hp1, hp2⟩ := mergeStage_all_success fN hN fallbackPick _ hgne hflne
  have hpart : partitionGroups (applyMergeOrder options.mergeOrder (sortNaturalKey
      (if (fS imagePaths).length ≠ imagePaths.length then fS imagePaths
       else imagePaths)))
      (calculate_optimal_group_size imagePaths.dedup.length maxWorkers
        options.veryfastMode options.fastMode) =
      some (chunkList ((calculate_optimal_group_size imagePaths.dedup.length
        maxWorkers options.veryfastMode options.fastMode).half / 2)
        (applyMergeOrder options.mergeOrder (sortNaturalKey
          (if (fS imagePaths).length ≠ imagePaths.length then fS imagePaths
           else imagePaths)))) := by
    unfold partitionGroups
    rw [hint]
    simp
  refine ⟨pages, ?_, ?_⟩
  · simp only [convert_images_to_pdf]
    rw [hlen, hpart]
    exact hp1
  · rw [hp2, chunkList_flatten _ hn1, hlen]

/-- C6, witness: three extracted paths with one duplicate, three workers; the
final document has 2 pages, the number of unique paths. -/
theorem c6_witness :
    ∃ pages,
      convert_images_to_pdf pySetKeep pySetRot 3 (fun _ => true) true
        (fun _ => none) ["b.png", "a.png", "a.png"] defaultOptions = some pages ∧
      pages.length = (["b.png", "a.png", "a.png"] : List String).dedup.length :=
  c6_dedup_page_count pySetKeep pySetRot pySet_pySetKeep pySet_pySetRot 3
    (fun _ => none) ["b.png", "a.png", "a.png"] defaultOptions (by decide) (by decide)

/-- C10: for a post-deduplication image count N with 38 ≤ N ≤ 1000, normal
speed mode and one worker, the computed group size is the non-integer float
37.5 (`half = 75`, `isFloat = true`; the final clamp does not replace it), the
partition step's `range()` raises `TypeError`, the top-level handler catches
it, and `convert_images_to_pdf` returns failure with no output document — for
every set iteration order, render outcome, merge availability and merge-order
policy. -/
theorem c10_float_group_size_failure
    (fS : List String → List String) (fN : List ℕ → List ℕ) (hS : PySet fS)
    (renderOk : ℕ → Bool) (pypdf2Available : Bool)
    (fallbackPick : List ℕ → Option ℕ)
    (imagePaths : List String) (options : ConvOptions)
    (hvf : options.veryfastMode = false) (hf : options.fastMode = false)
    (h1 : 38 ≤ imagePaths.dedup.length) (h2 : imagePaths.dedup.length ≤ 1000) :
    calculate_optimal_group_size imagePaths.dedup.length 1
        options.veryfastMode options.fastMode = ⟨75, true⟩ ∧
    convert_images_to_pdf fS fN 1 renderOk pypdf2Available fallbackPick
      imagePaths options = none := by
  have hperm := paths3_perm fS hS imagePaths options.mergeOrder
  have hlen := hperm.length_eq
  have hcalc : calculate_optimal_group_size imagePaths.dedup.length 1
      options.veryfastMode options.fastMode = ⟨75, true⟩ := by
    rw [hvf, hf]
    exact calc_c10_eval _ h1 h2
  refine ⟨hcalc, ?_⟩
  simp only [convert_images_to_pdf]
  rw [hlen, hcalc]
  rfl

/-- 38 distinct one-character paths for the C10 witness. -/
def c10Paths : List String := (List.range 38).map fun n => String.mk [Char.ofNat (65 + n)]

/-- C10, witness: 38 distinct extracted paths, one worker, normal mode — the
conversion fails with the float group size 37.5. -/
theorem c10_witness :
    calculate_optimal_group_size c10Paths.dedup.length 1
        defaultOptions.veryfastMode defaultOptions.fastMode = ⟨75, true⟩ ∧
    convert_images_to_pdf pySetKeep pySetRot 1 (fun _ => true) true
      (fun _ => none) c10Paths defaultOptions = none :=
  c10_float_group_size_failure pySetKeep pySetRot pySet_pySetKeep (fun _ => true)
    true (fun _ => none) c10Paths defaultOptions rfl rfl (by decide) (by decide)

/-- 24 distinct paths, naturally ordered, for the C1 failing input. -/
def c1Paths : List String := (List.range 24).map fun n => String.mk (List.replicate (n + 1) 'a')

/-- C1: the claim fails on the code.  `convert_images_to_pdf` does sort the
collected `(group_index, artifact)` pairs by group index (line 68), but then
applies `list(set(...))` to the sorted list (line 72, and `merge_pdfs` does so
again at pdf_merger.py line 32); a hash-set iteration order is implementation
defined, and under the admissible order that rotates the deduplicated list by
one, the merged output of a 24-image archive with 3 workers and natural merge
order concatenates the groups as 2, 0, 1 — not in ascending group-index order,
and not the merge-order policy applied to the deduplicated naturally-sorted
asset list. -/
theorem c1_order_scrambled_by_set_order :
    PySet (pySetKeep (α := String)) ∧ PySet pySetRot ∧
    convert_images_to_pdf pySetKeep pySetRot 3 (fun _ => true) true (fun _ => none)
        c1Paths defaultOptions =
      some (c1Paths.drop 20 ++ c1Paths.take 10 ++ (c1Paths.drop 10).take 10) ∧
    c1Paths.drop 20 ++ c1Paths.take 10 ++ (c1Paths.drop 10).take 10 ≠
      applyMergeOrder defaultOptions.mergeOrder (sortNaturalKey c1Paths.dedup) := by
  refine ⟨pySet_pySetKeep, pySet_pySetRot, ?_, ?_⟩
  · decide
  · decide
